import Mathlib

/- Verification of the traffic-flow clustering pipeline of this repository:
   app/preprocess_data.py, app/autoencoder.py, app/train_model.py and
   app/generate_report.py, modelled as a shallow embedding over ℚ and ℕ. -/

/-! ## Model of app/generate_report.py -/

/-- Mean of a list of rationals, as computed by `pandas.Series.mean` on the
selected entries (sum divided by count). -/
def listMean (l : List ℚ) : ℚ := l.sum / l.length

/-- Member indices of cluster `c` in the label vector: model of
`np.where(cluster_labels == c)[0]` in generate_report.py. -/
def memberIdx (labels : List Nat) (c : Nat) : List Nat :=
  (List.range labels.length).filter (fun i => labels.getD i 0 == c)

/-- Model of `cluster_to_avg[c]` in generate_report.py: the mean of the raw
per-segment means over the members of cluster `c`, and `-np.inf` (here `⊥` of
`WithBot ℚ`) when the cluster has no members. -/
def clusterToAvg (labels : List Nat) (rawMeans : List ℚ) (c : Nat) : WithBot ℚ :=
  let idx := memberIdx labels c
  if idx = [] then ⊥
  else ((listMean (idx.map (fun i => rawMeans.getD i 0)) : ℚ) : WithBot ℚ)

/-- Descending-by-average comparison on `(cluster id, average)` pairs.  Python
`sorted(cluster_to_avg.items(), key=..., reverse=True)` is a stable descending
sort by the second component, which coincides with `List.insertionSort` under
this relation. -/
def flowGE (x y : Nat × WithBot ℚ) : Prop := y.2 ≤ x.2

instance : DecidableRel flowGE := fun x y => inferInstanceAs (Decidable (y.2 ≤ x.2))

instance : IsTotal (Nat × WithBot ℚ) flowGE := ⟨fun x y => le_total y.2 x.2⟩

instance : IsTrans (Nat × WithBot ℚ) flowGE := ⟨fun _ _ _ h1 h2 => le_trans h2 h1⟩

/-- Pairs `(c, cluster_to_avg[c])` for `c = 0, 1, 2`, in cluster processing
order, i.e. `cluster_to_avg.items()`. -/
def avgPairs (labels : List Nat) (rawMeans : List ℚ) : List (Nat × WithBot ℚ) :=
  (List.range 3).map (fun c => (c, clusterToAvg labels rawMeans c))

/-- Model of `ranked = sorted(cluster_to_avg.items(), key=..., reverse=True)`:
stable sort of the three pairs by average, descending. -/
def rankedPairs (labels : List Nat) (rawMeans : List ℚ) : List (Nat × WithBot ℚ) :=
  List.insertionSort flowGE (avgPairs labels rawMeans)

/-- Literal `rank_to_name` dictionary of generate_report.py:
`0 ↦ "Low Flow Level", 1 ↦ "Medium Flow Level", 2 ↦ "High Flow Level"`. -/
def rankToName (r : Nat) : String :=
  if r = 0 then "Low Flow Level"
  else if r = 1 then "Medium Flow Level"
  else "High Flow Level"

/-- Rank of cluster `c`: its position in the descending-sorted pair list. -/
def clusterRank (labels : List Nat) (rawMeans : List ℚ) (c : Nat) : Nat :=
  (rankedPairs labels rawMeans).findIdx (fun p => p.1 == c)

/-- Model of `cluster_to_category[c]` in generate_report.py. -/
def clusterToCategory (labels : List Nat) (rawMeans : List ℚ) (c : Nat) : String :=
  rankToName (clusterRank labels rawMeans c)

/-- One row of the report DataFrame written by generate_report.py. -/
structure ReportRow where
  segment : String
  cluster_id : Nat
  category : String
  avg_raw_traffic : ℚ
deriving DecidableEq, Repr

/-- Model of the `result_df` DataFrame assembled by generate_report.py: one
row per segment, in segment order, carrying the segment name, its cluster
label, the category of that cluster and the raw per-segment mean. -/
def generateReport (segments : List String) (labels : List Nat)
    (rawMeans : List ℚ) : List ReportRow :=
  (List.range segments.length).map (fun i =>
    { segment := segments.getD i ""
      cluster_id := labels.getD i 0
      category := clusterToCategory labels rawMeans (labels.getD i 0)
      avg_raw_traffic := rawMeans.getD i 0 })

/-! ## Model of app/autoencoder.py (layer output lengths) -/

/-- Output length of a `Conv1D(..., padding="same")` layer: equal to the
input length. -/
def conv1dSameLen (n : Nat) : Nat := n

/-- Output length of `MaxPooling1D(2, padding="same")`: halves the length,
rounding up. -/
def maxPool2SameLen (n : Nat) : Nat := (n + 1) / 2

/-- Output length of `UpSampling1D(2)`: doubles the length. -/
def upSampling2Len (n : Nat) : Nat := 2 * n

/-- Literal `up_size = n_timesteps // 4 + (n_timesteps % 4 > 0)` computed in
build_autoencoder. -/
def upSize (timeSteps : Nat) : Nat :=
  timeSteps / 4 + (if timeSteps % 4 > 0 then 1 else 0)

/-- Length of the sequence axis after the encoder's conv/pool stack of
build_autoencoder, applied to an input of length `t`. -/
def encoderSeqLen (t : Nat) : Nat :=
  conv1dSameLen (maxPool2SameLen (conv1dSameLen (maxPool2SameLen (conv1dSameLen t))))

/-- Length of the sequence axis of the decoder output of build_autoencoder
(the reconstruction): reshape to `(up_size, 8)`, two `UpSampling1D(2)` layers
each followed by a same-padding convolution, and a final same-padding
convolution to one channel.  No cropping or truncation layer appears in the
source. -/
def decoderOutLen (t : Nat) : Nat :=
  conv1dSameLen (conv1dSameLen (upSampling2Len (conv1dSameLen (upSampling2Len (upSize t)))))

/-! ## Model of app/train_model.py -/

/-- Patience passed to `EarlyStopping` in train_autoencoder. -/
def earlyStopPatience : Nat := 5

/-- State carried by the EarlyStopping callback: the best validation loss so
far (`none` meaning the initial infinity), the epoch that achieved it (whose
weights are checkpointed by `restore_best_weights=True`), and the wait
counter counting epochs without improvement. -/
structure ESState where
  best : Option ℚ
  bestEpoch : Nat
  wait : Nat
deriving Repr, DecidableEq

/-- Modelled from the spec: the improvement test of the Keras `EarlyStopping`
callback as configured in train_model.py (`monitor="val_loss"`, `mode="min"`,
default `min_delta=0`); the callback itself is framework code, not part of
this repository.  A value improves when it is strictly below the best value
seen so far; every value improves on the initial infinity. -/
def esImproves (cur : ℚ) : Option ℚ → Bool
  | none => true
  | some b => decide (cur < b)

/-- Modelled from the spec: one `on_epoch_end` step of the Keras
`EarlyStopping` callback; `e` is the 1-based index of the epoch that just
ended.  On improvement the best loss, the best (checkpointed) epoch and a
reset wait counter are recorded; otherwise the wait counter increments. -/
def esStep (st : ESState) (e : Nat) (loss : ℚ) : ESState :=
  if esImproves loss st.best then ⟨some loss, e, 0⟩
  else ⟨st.best, st.bestEpoch, st.wait + 1⟩

/-- Modelled from the spec: the early-stopping-governed training loop of
train_autoencoder over a list of per-epoch validation losses, halting as soon
as the wait counter reaches the patience.  Returns the number of epochs
actually run and the epoch whose weights are restored into the returned
encoder (the best epoch, per `restore_best_weights=True`). -/
def esLoop (patience : Nat) : ESState → Nat → List ℚ → Nat × Nat
  | st, e, [] => (e, st.bestEpoch)
  | st, e, loss :: rest =>
      let st1 := esStep st (e + 1) loss
      if patience ≤ st1.wait then (e + 1, st1.bestEpoch)
      else esLoop patience st1 (e + 1) rest

/-- Modelled from the spec: the early-stopped training run of
train_autoencoder with its literal `patience=5` configuration. -/
def trainEarlyStop (losses : List ℚ) : Nat × Nat :=
  esLoop earlyStopPatience ⟨none, 0, 0⟩ 0 losses

/-- Outcome of the setup phase of train_autoencoder: either an error raised
before training starts, or a call to `fit` with the given numbers of training
and validation samples. -/
inductive TrainOutcome where
  | configError (msg : String)
  | fitCalled (trainCount valCount : Nat)
deriving Repr, DecidableEq

/-- Recognizer for the error alternative of `TrainOutcome`. -/
def TrainOutcome.isConfigError : TrainOutcome → Bool
  | configError _ => true
  | fitCalled _ _ => false

/-- Modelled from the spec: the sample split Keras `fit` performs for a given
`validation_split` (framework code, not in this repository): the first
`floor(n * (1 - validation_split))` samples train and the remaining samples
validate. -/
def kerasSplit (n : Nat) (validationSplit : ℚ) : Nat × Nat :=
  let tr := (⌊(n : ℚ) * (1 - validationSplit)⌋).toNat
  (tr, n - tr)

/-- Setup phase of train_autoencoder as written in train_model.py: it builds
the autoencoder, builds the EarlyStopping callback and calls `fit`
unconditionally; no hyperparameter validation of any kind is performed and no
exception is raised before training. -/
def trainAutoencoderOutcome (n : Nat) (validationSplit : ℚ) : TrainOutcome :=
  TrainOutcome.fitCalled (kerasSplit n validationSplit).1 (kerasSplit n validationSplit).2

/-! ## Model of app/preprocess_data.py -/

/-- Outcome of preprocess_data's input handling: either a raised
DataFormatError, or the shape of the returned tensor `x_seq`. -/
inductive PreprocessOutcome where
  | dataFormatError (msg : String)
  | ok (shape : Nat × Nat × Nat)
deriving Repr, DecidableEq

/-- Recognizer for the error alternative of `PreprocessOutcome`. -/
def PreprocessOutcome.isDataFormatError : PreprocessOutcome → Bool
  | dataFormatError _ => true
  | ok _ => false

/-- Control flow of preprocess_data as written in preprocess_data.py: the
body is straight-line (set index, transpose, segment names, raw means, scale,
reshape) with no validation branch, so every table with `nSegs` data columns
and `nTime` rows reaches the final reshape to `(nSegs, nTime, 1)`, and no
error is raised by the function itself. -/
def preprocessOutcome (nSegs nTime : Nat) : PreprocessOutcome :=
  PreprocessOutcome.ok (nSegs, nTime, 1)

/-- Mean of a tuple of rationals (numpy mean along an axis). -/
def finMean (n : Nat) (v : Fin n → ℚ) : ℚ := (∑ i, v i) / n

/-- Population variance of a tuple of rationals, as used by sklearn's
StandardScaler (`ddof = 0`). -/
def finVar (n : Nat) (v : Fin n → ℚ) : ℚ :=
  finMean n (fun i => (v i - finMean n v) ^ 2)

/-- The transposed view `x_segments = unprocessed_data.T` built in
preprocess_data: entry `(i, j)` is the raw count of segment `i` at time step
`j`, where `table` is the raw table whose rows are time steps and whose
columns (after the index column) are segments. -/
def xSegments (t s : Nat) (table : Fin t → Fin s → ℚ) : Fin s → Fin t → ℚ :=
  fun i j => table j i

/-- Column `j` of `x_segments`: the values of all segments at time step `j`.
This is the feature that `StandardScaler.fit_transform` standardizes. -/
def timeStepCol (t s : Nat) (table : Fin t → Fin s → ℚ) (j : Fin t) : Fin s → ℚ :=
  fun i => xSegments t s table i j

/-- The raw per-segment means `segment_mean_raw = x_segments.mean(axis=1)`
returned by preprocess_data for the report. -/
def segmentMeanRaw (t s : Nat) (table : Fin t → Fin s → ℚ) (i : Fin s) : ℚ :=
  finMean t (xSegments t s table i)

/-- Characterization of sklearn's StandardScaler scale vector: for each
feature (time step) the scale is the square root of the population variance,
with zero variances replaced by 1 (`_handle_zeros_in_scale`).  The square
root is represented relationally since the model works over ℚ. -/
def IsScalerScale (t s : Nat) (table : Fin t → Fin s → ℚ) (σ : Fin t → ℚ) : Prop :=
  ∀ j, if finVar s (timeStepCol t s table j) = 0 then σ j = 1
       else 0 < σ j ∧ (σ j) ^ 2 = finVar s (timeStepCol t s table j)

/-- The standardized matrix `x_scaled = scaler.fit_transform(x_segments)`:
subtract the per-time-step mean and divide by the per-time-step scale. -/
def xScaled (t s : Nat) (table : Fin t → Fin s → ℚ) (σ : Fin t → ℚ) :
    Fin s → Fin t → ℚ :=
  fun i j => (xSegments t s table i j - finMean s (timeStepCol t s table j)) / σ j

/-- The tensor `x_seq = x_scaled.reshape((n_segments, n_timesteps, 1))`
returned by preprocess_data. -/
def xSeq (t s : Nat) (table : Fin t → Fin s → ℚ) (σ : Fin t → ℚ) :
    Fin s → Fin t → Fin 1 → ℚ :=
  fun i j _ => xScaled t s table σ i j

/-- Time-step feature `j` of the tensor `x_seq`, across segments. -/
def xSeqFeature (t s : Nat) (table : Fin t → Fin s → ℚ) (σ : Fin t → ℚ)
    (j : Fin t) : Fin s → ℚ :=
  fun i => xSeq t s table σ i j ⟨0, Nat.one_pos⟩

/-! ## Theorems -/

/-- C1: generate_report sorts the three clusters by mean raw traffic in
descending order (stable), but the literal `rank_to_name` dictionary then
assigns rank 0 the label "Low Flow Level" and rank 2 the label
"High Flow Level".  At the concrete input with labels `[0, 1, 2]` and raw
means `[10, 5, 1]`, cluster 0 has the highest mean raw traffic (10), obtains
rank 0, and receives the label "Low Flow Level", while the lowest-mean
cluster 2 receives "High Flow Level" — the reverse of the labelling the
claim states. -/
theorem generate_report_label_inversion :
    clusterToAvg [0, 1, 2] [10, 5, 1] 0 = ((10 : ℚ) : WithBot ℚ) ∧
    clusterToAvg [0, 1, 2] [10, 5, 1] 1 = ((5 : ℚ) : WithBot ℚ) ∧
    clusterToAvg [0, 1, 2] [10, 5, 1] 2 = ((1 : ℚ) : WithBot ℚ) ∧
    clusterRank [0, 1, 2] [10, 5, 1] 0 = 0 ∧
    clusterToCategory [0, 1, 2] [10, 5, 1] 0 = "Low Flow Level" ∧
    clusterToCategory [0, 1, 2] [10, 5, 1] 2 = "High Flow Level" := by
  have hp : avgPairs [0, 1, 2] [10, 5, 1] =
      [(0, ((10 : ℚ) : WithBot ℚ)), (1, ((5 : ℚ) : WithBot ℚ)), (2, ((1 : ℚ) : WithBot ℚ))] := by
    norm_num [avgPairs, clusterToAvg, memberIdx, listMean, List.range_succ]
  have h0 : clusterToAvg [0, 1, 2] [10, 5, 1] 0 = ((10 : ℚ) : WithBot ℚ) := by
    norm_num [clusterToAvg, memberIdx, listMean, List.range_succ]
  have h1 : clusterToAvg [0, 1, 2] [10, 5, 1] 1 = ((5 : ℚ) : WithBot ℚ) := by
    norm_num [clusterToAvg, memberIdx, listMean, List.range_succ]
  have h2 : clusterToAvg [0, 1, 2] [10, 5, 1] 2 = ((1 : ℚ) : WithBot ℚ) := by
    norm_num [clusterToAvg, memberIdx, listMean, List.range_succ]
  refine ⟨h0, h1, h2, ?_, ?_, ?_⟩ <;>
    · simp only [clusterToCategory, clusterRank, rankedPairs, hp]
      decide

/-- C2 (counterexample): for `time_steps = 10` the decoder of
build_autoencoder produces a reconstruction of length 12, not 10; no cropping
happens. -/
theorem build_autoencoder_len_cex :
    decoderOutLen 10 = 12 ∧ decoderOutLen 10 ≠ 10 := by decide

/-- C2 (amended): the decoder output length of build_autoencoder equals
`4 * ceil(time_steps / 4)`; it equals the input length exactly when
`time_steps` is a multiple of 4, and exceeds it otherwise — the code contains
no cropping or truncation of the excess. -/
theorem build_autoencoder_output_len (t : Nat) :
    decoderOutLen t = 4 * ((t + 3) / 4) ∧ (decoderOutLen t = t ↔ t % 4 = 0) := by
  unfold decoderOutLen conv1dSameLen upSampling2Len upSize
  by_cases h : t % 4 > 0 <;> simp [h] <;> omega

/-- C7 (counterexample): with a single sample and `validation_split = 0.25`,
train_autoencoder raises no ConfigurationError; it proceeds straight to
`fit`, which receives 0 training samples and 1 validation sample. -/
theorem train_autoencoder_no_check_cex :
    trainAutoencoderOutcome 1 (1 / 4) = TrainOutcome.fitCalled 0 1 ∧
    (trainAutoencoderOutcome 1 (1 / 4)).isConfigError = false := by
  have hf : (⌊((1 : Nat) : ℚ) * (1 - 1 / 4)⌋).toNat = 0 := by norm_num
  constructor
  · simp only [trainAutoencoderOutcome, kerasSplit, hf, Nat.sub_zero]
  · simp only [trainAutoencoderOutcome, TrainOutcome.isConfigError]

/-- C7 (amended): train_autoencoder performs no validation-split check at
all: for every sample count and every `validation_split` value it proceeds
to call `fit` on the Keras-side split, and never fails with a
ConfigurationError before training. -/
theorem train_autoencoder_always_fits (n : Nat) (vs : ℚ) :
    (trainAutoencoderOutcome n vs).isConfigError = false ∧
    trainAutoencoderOutcome n vs =
      TrainOutcome.fitCalled (kerasSplit n vs).1 (kerasSplit n vs).2 :=
  ⟨rfl, rfl⟩

/-- C8 (counterexample): with zero data columns besides the index (zero
segments), or with zero time steps, preprocess_data raises no
DataFormatError: its straight-line body reaches the final reshape. -/
theorem preprocess_no_check_cex :
    preprocessOutcome 0 5 = PreprocessOutcome.ok (0, 5, 1) ∧
    (preprocessOutcome 0 5).isDataFormatError = false ∧
    (preprocessOutcome 3 0).isDataFormatError = false := by decide

/-- C8 (amended): preprocess_data performs no input validation: for every
segment count and time-step count, including zero, it proceeds to the reshape
of shape `(segments, time steps, 1)` and never raises a DataFormatError
itself (degenerate inputs surface later, inside the sklearn scaler). -/
theorem preprocess_no_format_check (s t : Nat) :
    (preprocessOutcome s t).isDataFormatError = false ∧
    preprocessOutcome s t = PreprocessOutcome.ok (s, t, 1) :=
  ⟨rfl, rfl⟩

/-- C3: with the `patience=5`, `mode="min"`, `restore_best_weights=True`
configuration of train_autoencoder, a validation-loss sequence that improves
for 3 epochs and then fails to improve for 5 consecutive epochs makes
training halt at epoch 8 — regardless of how many further epochs were
scheduled — and the weights restored into the returned encoder are the
checkpoint of epoch 3, the epoch with the lowest validation loss observed. -/
theorem train_early_stopping_best_checkpoint
    (l1 l2 l3 l4 l5 l6 l7 l8 : ℚ) (rest : List ℚ)
    (h12 : l2 < l1) (h23 : l3 < l2)
    (h4 : l3 ≤ l4) (h5 : l3 ≤ l5) (h6 : l3 ≤ l6) (h7 : l3 ≤ l7) (h8 : l3 ≤ l8) :
    trainEarlyStop ([l1, l2, l3, l4, l5, l6, l7, l8] ++ rest) = (8, 3) := by
  have n4 : ¬(l4 < l3) := not_lt.mpr h4
  have n5 : ¬(l5 < l3) := not_lt.mpr h5
  have n6 : ¬(l6 < l3) := not_lt.mpr h6
  have n7 : ¬(l7 < l3) := not_lt.mpr h7
  have n8 : ¬(l8 < l3) := not_lt.mpr h8
  simp [trainEarlyStop, earlyStopPatience, esLoop, esStep, esImproves,
    h12, h23, n4, n5, n6, n7, n8]

/-- A cluster has member index list `[]` exactly when its id does not occur in
the label vector. -/
theorem memberIdx_eq_nil (labels : List Nat) (c : Nat) :
    memberIdx labels c = [] ↔ c ∉ labels := by
  simp only [memberIdx, List.filter_eq_nil_iff, List.mem_range, beq_iff_eq]
  constructor
  · intro h hmem
    obtain ⟨n, hn, hget⟩ := List.mem_iff_getElem.mp hmem
    exact h n hn (by simp [List.getD_eq_getElem?_getD, List.getElem?_eq_getElem hn, hget])
  · intro h i hi hip
    apply h
    rw [List.getD_eq_getElem?_getD, List.getElem?_eq_getElem hi] at hip
    exact hip ▸ List.getElem_mem hi

/-- `cluster_to_avg[c]` is the minus-infinity sentinel exactly when cluster
`c` is empty. -/
theorem clusterToAvg_eq_bot_iff (labels : List Nat) (rawMeans : List ℚ) (c : Nat) :
    clusterToAvg labels rawMeans c = ⊥ ↔ c ∉ labels := by
  rw [← memberIdx_eq_nil labels c]
  by_cases h : memberIdx labels c = [] <;> simp [clusterToAvg, h]

/-- The sorted pair list always has exactly three entries. -/
theorem rankedPairs_length (labels : List Nat) (rawMeans : List ℚ) :
    (rankedPairs labels rawMeans).length = 3 := by
  rw [rankedPairs, List.length_insertionSort, avgPairs, List.length_map, List.length_range]

/-- The cluster ids of the sorted pair list are a permutation of `0, 1, 2`. -/
theorem rankedPairs_fst_perm (labels : List Nat) (rawMeans : List ℚ) :
    ((rankedPairs labels rawMeans).map Prod.fst).Perm [0, 1, 2] := by
  have h := (List.perm_insertionSort flowGE (avgPairs labels rawMeans)).map Prod.fst
  have hr : List.range 3 = [0, 1, 2] := by decide
  simpa [avgPairs, List.map_map, Function.comp, hr] using h

/-- Membership in the sorted pair list: exactly the pairs
`(c, cluster_to_avg[c])` for `c < 3`. -/
theorem mem_rankedPairs (labels : List Nat) (rawMeans : List ℚ) (p : Nat × WithBot ℚ) :
    p ∈ rankedPairs labels rawMeans ↔ p.1 < 3 ∧ p.2 = clusterToAvg labels rawMeans p.1 := by
  obtain ⟨c0, a0⟩ := p
  simp only [rankedPairs, List.mem_insertionSort, avgPairs, List.mem_map, List.mem_range,
    Prod.mk.injEq]
  constructor
  · rintro ⟨c, hc, rfl, rfl⟩
    exact ⟨hc, rfl⟩
  · rintro ⟨h3, h2⟩
    exact ⟨c0, h3, rfl, h2.symm⟩

/-- The sorted pair list is sorted descending by average. -/
theorem rankedPairs_sorted (labels : List Nat) (rawMeans : List ℚ) :
    (rankedPairs labels rawMeans).Sorted flowGE :=
  List.sorted_insertionSort flowGE _

/-- The sorted pair list decomposes into exactly three pairs. -/
theorem rankedPairs_eq_three (labels : List Nat) (rawMeans : List ℚ) :
    ∃ p q r, rankedPairs labels rawMeans = [p, q, r] := by
  have hlen := rankedPairs_length labels rawMeans
  rcases hx : rankedPairs labels rawMeans with _ | ⟨p, _ | ⟨q, _ | ⟨r, _ | ⟨y, ys⟩⟩⟩⟩ <;>
    rw [hx] at hlen <;> simp at hlen
  exact ⟨p, q, r, rfl⟩

/-- Nonempty clusters have a finite (non-bottom) average. -/
theorem mem_rankedPairs_ne_bot (labels : List Nat) (rawMeans : List ℚ)
    (x : Nat × WithBot ℚ) (hx : x ∈ rankedPairs labels rawMeans)
    (hmem : x.1 ∈ labels) : x.2 ≠ ⊥ := by
  obtain ⟨h3, h2⟩ := (mem_rankedPairs labels rawMeans x).mp hx
  rw [h2, Ne, clusterToAvg_eq_bot_iff]
  exact fun habs => habs hmem

/-- C5: a cluster with zero member segments gets the minus-infinity sentinel
average, is ranked strictly last (rank 2) among the three clusters, and the
ranking is total: every cluster id receives a rank below 3, so the ranking
step cannot fail. -/
theorem generate_report_empty_cluster_last
    (labels : List Nat) (rawMeans : List ℚ) (c : Nat)
    (hc : c < 3) (hempty : c ∉ labels)
    (hothers : ∀ c', c' < 3 → c' ≠ c → c' ∈ labels) :
    clusterToAvg labels rawMeans c = ⊥ ∧
    clusterRank labels rawMeans c = 2 ∧
    (∀ c', c' < 3 → clusterRank labels rawMeans c' < 3) := by
  have hbot : clusterToAvg labels rawMeans c = ⊥ :=
    (clusterToAvg_eq_bot_iff labels rawMeans c).mpr hempty
  obtain ⟨p, q, r, hr⟩ := rankedPairs_eq_three labels rawMeans
  have hsorted := rankedPairs_sorted labels rawMeans
  rw [hr] at hsorted
  have hpq : flowGE p q := (List.sorted_cons.mp hsorted).1 q (by simp)
  have hqr : flowGE q r :=
    (List.sorted_cons.mp (List.sorted_cons.mp hsorted).2).1 r (by simp)
  have hperm : ([p.1, q.1, r.1] : List Nat).Perm [0, 1, 2] := by
    have h := rankedPairs_fst_perm labels rawMeans
    rw [hr] at h
    simpa using h
  have hnodup : ([p.1, q.1, r.1] : List Nat).Nodup :=
    hperm.nodup_iff.mpr (by decide)
  have hpqne : p.1 ≠ q.1 := by simp at hnodup; tauto
  have hprne : p.1 ≠ r.1 := by simp at hnodup; tauto
  have hqrne : q.1 ≠ r.1 := by simp at hnodup; tauto
  have hcmem : c ∈ [p.1, q.1, r.1] := hperm.symm.subset (by simp; omega)
  have hpm : p ∈ rankedPairs labels rawMeans := by rw [hr]; simp
  have hqm : q ∈ rankedPairs labels rawMeans := by rw [hr]; simp
  have hrm : r ∈ rankedPairs labels rawMeans := by rw [hr]; simp
  have havg : ∀ x, x ∈ rankedPairs labels rawMeans → x.2 = clusterToAvg labels rawMeans x.1 :=
    fun x hx => ((mem_rankedPairs labels rawMeans x).mp hx).2
  have hlt3 : ∀ x, x ∈ rankedPairs labels rawMeans → x.1 < 3 :=
    fun x hx => ((mem_rankedPairs labels rawMeans x).mp hx).1
  have hrc : r.1 = c := by
    by_contra hrc
    have hrb : r.2 ≠ ⊥ :=
      mem_rankedPairs_ne_bot labels rawMeans r hrm (hothers r.1 (hlt3 r hrm) hrc)
    simp only [List.mem_cons, List.not_mem_nil, or_false] at hcmem
    rcases hcmem with hcp | hcq | hcr
    · have hpbot : p.2 = ⊥ := by rw [havg p hpm, ← hcp]; exact hbot
      have hqbot : q.2 = ⊥ := le_bot_iff.mp (hpbot ▸ hpq)
      have hqne : q.1 ≠ c := by rw [hcp]; exact fun h => hpqne h.symm
      exact mem_rankedPairs_ne_bot labels rawMeans q hqm
        (hothers q.1 (hlt3 q hqm) hqne) hqbot
    · have hqbot : q.2 = ⊥ := by rw [havg q hqm, ← hcq]; exact hbot
      have hrbot : r.2 = ⊥ := le_bot_iff.mp (hqbot ▸ hqr)
      exact hrb hrbot
    · exact hrc hcr.symm
  have hpc : p.1 ≠ c := fun h => hprne (h.trans hrc.symm)
  have hqc : q.1 ≠ c := fun h => hqrne (h.trans hrc.symm)
  refine ⟨hbot, ?_, ?_⟩
  · have e1 : (p.1 == c) = false := beq_eq_false_iff_ne.mpr hpc
    have e2 : (q.1 == c) = false := beq_eq_false_iff_ne.mpr hqc
    have e3 : (r.1 == c) = true := beq_iff_eq.mpr hrc
    simp [clusterRank, hr, List.findIdx_cons, e1, e2, e3]
  · intro c' hc'
    have hc'mem : c' ∈ [p.1, q.1, r.1] := hperm.symm.subset (by simp; omega)
    have : ∃ x ∈ rankedPairs labels rawMeans, (x.1 == c') = true := by
      simp only [List.mem_cons, List.not_mem_nil, or_false] at hc'mem
      rcases hc'mem with h | h | h
      · exact ⟨p, hpm, beq_iff_eq.mpr h.symm⟩
      · exact ⟨q, hqm, beq_iff_eq.mpr h.symm⟩
      · exact ⟨r, hrm, beq_iff_eq.mpr h.symm⟩
    have := List.findIdx_lt_length.mpr this
    rw [rankedPairs_length labels rawMeans] at this
    exact this

/-- C5 (witness): with labels `[0, 0, 2]` (cluster 1 empty) and raw means
`[4, 6, 2]`, cluster 1 gets the minus-infinity average and rank 2 (last). -/
theorem generate_report_empty_cluster_last_witness :
    clusterToAvg [0, 0, 2] [4, 6, 2] 1 = ⊥ ∧
    clusterRank [0, 0, 2] [4, 6, 2] 1 = 2 := by
  have h := generate_report_empty_cluster_last [0, 0, 2] [4, 6, 2] 1 (by decide)
    (by decide) (by intro c' h3 hne; interval_cases c' <;> simp_all)
  exact ⟨h.1, h.2.1⟩

/-- For any three pairs whose cluster ids are a permutation of `0, 1, 2`, the
labels assigned through `findIdx` positions are a permutation of the three
flow-level names. -/
theorem rank3_perm (p q r : Nat × WithBot ℚ)
    (h : ([p.1, q.1, r.1] : List Nat).Perm [0, 1, 2]) :
    ([rankToName (List.findIdx (fun x => x.1 == 0) [p, q, r]),
      rankToName (List.findIdx (fun x => x.1 == 1) [p, q, r]),
      rankToName (List.findIdx (fun x => x.1 == 2) [p, q, r])] : List String).Perm
      ["Low Flow Level", "Medium Flow Level", "High Flow Level"] := by
  obtain ⟨a, va⟩ := p
  obtain ⟨b, vb⟩ := q
  obtain ⟨c, vc⟩ := r
  simp only at h ⊢
  have ha : a < 3 := by
    have : a ∈ [0, 1, 2] := h.subset (by simp)
    simp at this; omega
  have hb : b < 3 := by
    have : b ∈ [0, 1, 2] := h.subset (by simp)
    simp at this; omega
  have hc : c < 3 := by
    have : c ∈ [0, 1, 2] := h.subset (by simp)
    simp at this; omega
  interval_cases a <;> interval_cases b <;> interval_cases c <;>
    first
      | exact absurd h (by decide)
      | (simp [List.findIdx_cons, rankToName]; try decide)

/-- C10: the cluster-to-category mapping of generate_report is a bijection
between the cluster ids `0, 1, 2` and the three flow-level labels: the labels
assigned to clusters 0, 1 and 2 are a permutation of the three names (every
cluster, including an empty one, gets exactly one label and no two clusters
share a label), and every category the function can produce is one of the
three names, so every report row's category is defined. -/
theorem generate_report_category_bijection (labels : List Nat) (rawMeans : List ℚ) :
    ([clusterToCategory labels rawMeans 0, clusterToCategory labels rawMeans 1,
      clusterToCategory labels rawMeans 2] : List String).Perm
      ["Low Flow Level", "Medium Flow Level", "High Flow Level"] ∧
    ∀ c, clusterToCategory labels rawMeans c ∈
      (["Low Flow Level", "Medium Flow Level", "High Flow Level"] : List String) := by
  constructor
  · obtain ⟨p, q, r, hr⟩ := rankedPairs_eq_three labels rawMeans
    have hperm : ([p.1, q.1, r.1] : List Nat).Perm [0, 1, 2] := by
      have h := rankedPairs_fst_perm labels rawMeans
      rw [hr] at h
      simpa using h
    have h3 := rank3_perm p q r hperm
    simpa [clusterToCategory, clusterRank, hr] using h3
  · intro c
    simp only [clusterToCategory, rankToName]
    split_ifs <;> simp

/-- C3 (witness): on the loss sequence `9, 8, 7, 7, 7, 7, 7, 7` followed by a
ninth scheduled epoch, training stops after epoch 8 and restores epoch 3. -/
theorem train_early_stopping_best_checkpoint_witness :
    trainEarlyStop ([9, 8, 7, 7, 7, 7, 7, 7] ++ [1]) = (8, 3) :=
  train_early_stopping_best_checkpoint 9 8 7 7 7 7 7 7 [1]
    (by norm_num) (by norm_num) (by norm_num) (by norm_num) (by norm_num)
    (by norm_num) (by norm_num)

/-- A centered column scaled by any constant has mean zero. -/
theorem finMean_center_div (n : Nat) (hn : 0 < n) (v : Fin n → ℚ) (c : ℚ) :
    finMean n (fun i => (v i - finMean n v) / c) = 0 := by
  have hnQ : (n : ℚ) ≠ 0 := Nat.cast_ne_zero.mpr hn.ne'
  have hsum : ∑ i, (v i - finMean n v) = 0 := by
    rw [Finset.sum_sub_distrib, Finset.sum_const, Finset.card_univ, Fintype.card_fin,
      nsmul_eq_mul, finMean]
    field_simp
  have hsum2 : (∑ i, (v i - finMean n v) / c) = 0 := by
    rw [← Finset.sum_div, hsum, zero_div]
  rw [finMean, hsum2, zero_div]

/-- A centered column scaled by a square root of its variance has variance
one. -/
theorem finVar_center_div (n : Nat) (hn : 0 < n) (v : Fin n → ℚ) (c : ℚ)
    (hc : c ^ 2 = finVar n v) (hc0 : c ≠ 0) :
    finVar n (fun i => (v i - finMean n v) / c) = 1 := by
  have hm := finMean_center_div n hn v c
  unfold finVar
  rw [hm]
  have hsq : ∀ i : Fin n, ((v i - finMean n v) / c - 0) ^ 2 =
      (v i - finMean n v) ^ 2 * (c ^ 2)⁻¹ := by
    intro i
    rw [sub_zero, div_pow]
    ring
  simp only [hsq]
  have hpull : finMean n (fun i => (v i - finMean n v) ^ 2 * (c ^ 2)⁻¹) =
      finMean n (fun i => (v i - finMean n v) ^ 2) * (c ^ 2)⁻¹ := by
    simp only [finMean, ← Finset.sum_mul]
    ring
  rw [hpull]
  have : finMean n (fun i => (v i - finMean n v) ^ 2) = finVar n v := rfl
  rw [this, ← hc]
  field_simp

/-- C4 (amended): every time-step feature of the preprocessed tensor has mean
zero across segments, and it has variance one across segments whenever the
raw values of that time step are not all equal (nonzero variance); for a
constant time step the sklearn scaler divides by the fallback scale 1, and
the feature is identically zero with variance 0, not 1.  The statistics are
computed across segments for each time step, never per segment. -/
theorem preprocess_standardized_features
    (t s : Nat) (table : Fin t → Fin s → ℚ) (σ : Fin t → ℚ) (j : Fin t)
    (hs : 0 < s) (hσ : IsScalerScale t s table σ) :
    finMean s (xSeqFeature t s table σ j) = 0 ∧
    (finVar s (timeStepCol t s table j) ≠ 0 → finVar s (xSeqFeature t s table σ j) = 1) := by
  have hfeat : xSeqFeature t s table σ j =
      fun i => (timeStepCol t s table j i - finMean s (timeStepCol t s table j)) / σ j := rfl
  constructor
  · rw [hfeat]
    exact finMean_center_div s hs _ (σ j)
  · intro hv
    have hj := hσ j
    rw [if_neg hv] at hj
    rw [hfeat]
    exact finVar_center_div s hs _ (σ j) hj.2 (ne_of_gt hj.1)

/-- C4 (counterexample): a valid input whose single time step is constant
across the two segments (both raw values equal 3).  The sklearn scale for
that feature is the zero-variance fallback 1, and the resulting time-step
feature of the tensor is identically zero: its variance is 0, not 1. -/
theorem preprocess_unit_variance_cex :
    IsScalerScale 1 2 (fun _ _ => (3 : ℚ)) (fun _ => 1) ∧
    finVar 2 (xSeqFeature 1 2 (fun _ _ => (3 : ℚ)) (fun _ => 1) ⟨0, Nat.one_pos⟩) = 0 ∧
    (0 : ℚ) ≠ 1 := by
  refine ⟨?_, ?_, by norm_num⟩
  · intro j
    have hv : finVar 2 (timeStepCol 1 2 (fun _ _ => (3 : ℚ)) j) = 0 := by
      norm_num [finVar, finMean, timeStepCol, xSegments, Fin.sum_univ_two]
    rw [if_pos hv]
  · norm_num [finVar, finMean, xSeqFeature, xSeq, xScaled, xSegments, timeStepCol,
      Fin.sum_univ_two]

/-- C4 (witness): a non-constant column (raw values 1 and 3 at the single
time step, scale 1 with variance 1) is standardized to mean 0 and variance
1. -/
theorem preprocess_standardized_features_witness :
    finMean 2 (xSeqFeature 1 2 (fun _ i => if i.1 = 0 then (1 : ℚ) else 3) (fun _ => 1)
      ⟨0, Nat.one_pos⟩) = 0 ∧
    finVar 2 (xSeqFeature 1 2 (fun _ i => if i.1 = 0 then (1 : ℚ) else 3) (fun _ => 1)
      ⟨0, Nat.one_pos⟩) = 1 := by
  have hvar : ∀ j : Fin 1,
      finVar 2 (timeStepCol 1 2 (fun _ i => if i.1 = 0 then (1 : ℚ) else 3) j) = 1 := by
    intro j
    norm_num [finVar, finMean, timeStepCol, xSegments, Fin.sum_univ_two,
      Fin.val_zero, Fin.val_one]
  have hσ : IsScalerScale 1 2 (fun _ i => if i.1 = 0 then (1 : ℚ) else 3) (fun _ => 1) := by
    intro j
    rw [if_neg (by rw [hvar j]; norm_num)]
    exact ⟨by norm_num, by rw [hvar j]; norm_num⟩
  have h := preprocess_standardized_features 1 2
    (fun _ i => if i.1 = 0 then (1 : ℚ) else 3) (fun _ => 1) ⟨0, Nat.one_pos⟩
    (by norm_num) hσ
  exact ⟨h.1, h.2 (by rw [hvar ⟨0, Nat.one_pos⟩]; norm_num)⟩

/-- Row `i` of the report, for `i` within bounds. -/
theorem generateReport_getD (segments : List String) (labels : List Nat)
    (rawMeans : List ℚ) (i : Nat) (hi : i < segments.length) :
    (generateReport segments labels rawMeans).getD i ⟨"", 0, "", 0⟩ =
      { segment := segments.getD i ""
        cluster_id := labels.getD i 0
        category := clusterToCategory labels rawMeans (labels.getD i 0)
        avg_raw_traffic := rawMeans.getD i 0 } := by
  simp [generateReport, List.getD_eq_getElem?_getD, List.getElem?_map,
    List.getElem?_range hi]

/-- Every rank name is one of the three flow-level labels. -/
theorem rankToName_mem (n : Nat) :
    rankToName n ∈ (["Low Flow Level", "Medium Flow Level", "High Flow Level"] : List String) := by
  simp only [rankToName]
  split_ifs <;> simp

/-- C9: on a successful run the report contains exactly one row per segment in
the preprocessor's segment order; row `i` carries segment `i`'s name, its
cluster label (an integer below 3), a category that is one of the three fixed
flow-level labels, and as `avg_raw_traffic` exactly the raw pre-scaling mean
that preprocess_data computed for segment `i` from the input table. -/
theorem generate_report_rows
    (t s : Nat) (table : Fin t → Fin s → ℚ) (segments : List String) (labels : List Nat)
    (hseg : segments.length = s) (hlab : labels.length = s)
    (hl3 : ∀ x ∈ labels, x < 3) :
    (generateReport segments labels (List.ofFn (segmentMeanRaw t s table))).length = s ∧
    ∀ i : Fin s,
      (generateReport segments labels (List.ofFn (segmentMeanRaw t s table))).getD i.1
          ⟨"", 0, "", 0⟩ =
        { segment := segments.getD i.1 ""
          cluster_id := labels.getD i.1 0
          category := clusterToCategory labels (List.ofFn (segmentMeanRaw t s table))
            (labels.getD i.1 0)
          avg_raw_traffic := segmentMeanRaw t s table i } ∧
      labels.getD i.1 0 < 3 ∧
      clusterToCategory labels (List.ofFn (segmentMeanRaw t s table)) (labels.getD i.1 0) ∈
        (["Low Flow Level", "Medium Flow Level", "High Flow Level"] : List String) := by
  refine ⟨by simp [generateReport, hseg], ?_⟩
  intro i
  have hi : i.1 < segments.length := by rw [hseg]; exact i.2
  have hil : i.1 < labels.length := by rw [hlab]; exact i.2
  have havg : (List.ofFn (segmentMeanRaw t s table)).getD i.1 0 = segmentMeanRaw t s table i := by
    have hio : i.1 < (List.ofFn (segmentMeanRaw t s table)).length := by
      rw [List.length_ofFn]; exact i.2
    rw [List.getD_eq_getElem?_getD, List.getElem?_eq_getElem hio]
    simp [List.getElem_ofFn]
  refine ⟨?_, ?_, rankToName_mem _⟩
  · rw [generateReport_getD segments labels _ i.1 hi, havg]
  · have : labels.getD i.1 0 ∈ labels := by
      rw [List.getD_eq_getElem?_getD, List.getElem?_eq_getElem hil]
      exact List.getElem_mem hil
    exact hl3 _ this

/-- C9 (witness): a 2-segment, 1-time-step run with raw values 4 and 8 gives
a 2-row report whose first row carries segment "a", cluster 0, a defined
category and the raw mean of segment 0. -/
theorem generate_report_rows_witness :
    (generateReport ["a", "b"] [0, 1]
        (List.ofFn (segmentMeanRaw 1 2 (fun _ i => if i.1 = 0 then (4 : ℚ) else 8)))).length
        = 2 ∧
    ((generateReport ["a", "b"] [0, 1]
        (List.ofFn (segmentMeanRaw 1 2 (fun _ i => if i.1 = 0 then (4 : ℚ) else 8)))).getD 0
        ⟨"", 0, "", 0⟩ =
      { segment := ["a", "b"].getD 0 ""
        cluster_id := [0, 1].getD 0 0
        category := clusterToCategory [0, 1]
          (List.ofFn (segmentMeanRaw 1 2 (fun _ i => if i.1 = 0 then (4 : ℚ) else 8)))
          ([0, 1].getD 0 0)
        avg_raw_traffic := segmentMeanRaw 1 2 (fun _ i => if i.1 = 0 then (4 : ℚ) else 8)
          ⟨0, by norm_num⟩ }) ∧
    [0, 1].getD 0 0 < 3 ∧
    clusterToCategory [0, 1]
        (List.ofFn (segmentMeanRaw 1 2 (fun _ i => if i.1 = 0 then (4 : ℚ) else 8)))
        ([0, 1].getD 0 0) ∈
      (["Low Flow Level", "Medium Flow Level", "High Flow Level"] : List String) := by
  have h := generate_report_rows 1 2 (fun _ i => if i.1 = 0 then (4 : ℚ) else 8)
    ["a", "b"] [0, 1] rfl rfl (by decide)
  exact ⟨h.1, h.2 ⟨0, by norm_num⟩⟩
